import Mathlib

/-!
Shallow embedding of the typed environment-variable engine of
corvid-agent/env (src/index.ts): the type parsers, the field resolver
`env`, the schema aggregator `envSchema`, and the error types, together
with theorems about their behaviour.

Machine numbers: the source runs on JS doubles produced by `Number(raw)`.
The claims under verification only distinguish NaN / ±Infinity / exact
small values, so the JS number is modelled exactly: `Option JsNum` with
`none` for NaN and `JsNum.fin q` carrying the exact rational value of the
accepted numeric string.
-/

deriving instance DecidableEq for Except

namespace CorvidEnv

/-- Value of a JS number that is not NaN: a finite (exact rational) value
or a signed infinity. -/
inductive JsNum where
  | fin (q : ℚ)
  | inf (pos : Bool)
deriving DecidableEq

/-- JS unary minus on a non-NaN number. -/
def JsNum.neg : JsNum → JsNum
  | .fin q => .fin (-q)
  | .inf p => .inf (!p)

/-- ASCII decimal digit test (used by the numeric-string grammar). -/
def isDigitChar (c : Char) : Bool := decide (48 ≤ c.toNat ∧ c.toNat ≤ 57)

/-- Digit test for a radix up to 16 (hex letters in either case). -/
def isRadixDigit (base : Nat) (c : Char) : Bool :=
  (isDigitChar c && decide (c.toNat - 48 < base))
  || decide (97 ≤ c.toNat ∧ c.toNat ≤ 102 ∧ c.toNat - 87 < base)
  || decide (65 ≤ c.toNat ∧ c.toNat ≤ 70 ∧ c.toNat - 55 < base)

/-- Numeric value of one digit character (decimal or hex letter). -/
def digitVal (c : Char) : Nat :=
  if 97 ≤ c.toNat then c.toNat - 87
  else if 65 ≤ c.toNat then c.toNat - 55
  else c.toNat - 48

/-- Value of a digit string in the given base. -/
def digitsToNat (base : Nat) (l : List Char) : Nat :=
  l.foldl (fun a c => base * a + digitVal c) 0

/-- JS whitespace (the characters stripped by `trim` and by the
string-to-number conversion): tab, LF, VT, FF, CR, space, NBSP, line and
paragraph separators, BOM. -/
def jsWhitespaceChar (c : Char) : Bool :=
  decide (c.toNat ∈ [9, 10, 11, 12, 13, 32, 160, 8232, 8233, 65279])

/-- Strip leading and trailing JS whitespace from a character list. -/
def jsTrim (l : List Char) : List Char :=
  ((l.dropWhile jsWhitespaceChar).reverse.dropWhile jsWhitespaceChar).reverse

/-- Model of JS `String.prototype.trim`. -/
def jsTrimStr (s : String) : String := String.mk (jsTrim s.toList)

/-- Model of JS `String.prototype.toLowerCase` (ASCII range, which is all
the engine compares against). -/
def jsToLower (s : String) : String := String.mk (s.toList.map Char.toLower)

/-- Character that does not start an exponent part. -/
def notExpChar (c : Char) : Bool := decide (c ≠ 'e' ∧ c ≠ 'E')

/-- Mantissa of a JS decimal numeric string: digits, optionally followed
by a dot and further digits, at least one digit in total. Returns its
exact rational value. -/
def parseMantissa (l : List Char) : Option ℚ :=
  let ip := l.takeWhile isDigitChar
  let rest := l.dropWhile isDigitChar
  match rest with
  | [] => if ip.isEmpty then none else some ((digitsToNat 10 ip : ℚ))
  | c :: fp =>
    if c = '.' then
      if fp.all isDigitChar && !(ip.isEmpty && fp.isEmpty) then
        some ((digitsToNat 10 ip : ℚ) + (digitsToNat 10 fp : ℚ) / (10 : ℚ) ^ fp.length)
      else none
    else none

/-- Exponent part of a JS decimal numeric string (after the `e`):
optionally signed digits. -/
def parseExpPart (l : List Char) : Option Int :=
  match l with
  | '+' :: ds => if !ds.isEmpty && ds.all isDigitChar then some ((digitsToNat 10 ds : Int)) else none
  | '-' :: ds => if !ds.isEmpty && ds.all isDigitChar then some (-(digitsToNat 10 ds : Int)) else none
  | ds => if !ds.isEmpty && ds.all isDigitChar then some ((digitsToNat 10 ds : Int)) else none

/-- Unsigned JS decimal numeric string: mantissa with optional exponent. -/
def parseUnsignedDec (l : List Char) : Option ℚ :=
  let m := l.takeWhile notExpChar
  let rest := l.dropWhile notExpChar
  match rest with
  | [] => parseMantissa m
  | _ :: ex =>
    match parseMantissa m, parseExpPart ex with
    | some q, some e => some (q * (10 : ℚ) ^ e)
    | _, _ => none

/-- Unsigned body of a JS numeric string: `Infinity` or a decimal value. -/
def parseSignless (l : List Char) : Option JsNum :=
  if l = "Infinity".toList then some (JsNum.inf true)
  else (parseUnsignedDec l).map JsNum.fin

/-- Signed body of a JS numeric string. -/
def jsSigned (pos : Bool) (l : List Char) : Option JsNum :=
  (parseSignless l).map (fun n => if pos then n else n.neg)

/-- Radix-prefixed JS numeric string body (after `0x` / `0o` / `0b`). -/
def jsRadix (base : Nat) (ds : List Char) : Option JsNum :=
  if !ds.isEmpty && ds.all (isRadixDigit base) then
    some (JsNum.fin ((digitsToNat base ds : ℚ)))
  else none

/-- Dispatch on the first characters of a trimmed JS numeric string: an
explicit sign allows only a decimal or Infinity body, and a leading `0`
followed by a radix letter selects a radix-prefixed integer. -/
def jsStrToNumberCore (l : List Char) : Option JsNum :=
  match l with
  | [] => some (JsNum.fin 0)
  | c :: rest =>
    if c = '+' then jsSigned true rest
    else if c = '-' then jsSigned false rest
    else if c = '0' ∧ (rest.headD ' ' = 'x' ∨ rest.headD ' ' = 'X') then jsRadix 16 rest.tail
    else if c = '0' ∧ (rest.headD ' ' = 'o' ∨ rest.headD ' ' = 'O') then jsRadix 8 rest.tail
    else if c = '0' ∧ (rest.headD ' ' = 'b' ∨ rest.headD ' ' = 'B') then jsRadix 2 rest.tail
    else jsSigned true (c :: rest)

/-- Model of the JS `Number(string)` conversion used by the source's
`parseNumber` and `parsePort`: trim, then empty means 0, otherwise parse
a signed decimal (with optional fraction and exponent), `Infinity`, or a
radix-prefixed integer; `none` is NaN. -/
def jsStrToNumber (s : String) : Option JsNum :=
  jsStrToNumberCore (jsTrim s.toList)

/-- Model of JS `Number.isInteger` on a non-NaN number. -/
def jsIsInteger : JsNum → Bool
  | .fin q => decide (q.den = 1)
  | .inf _ => false

/-- JS comparison of a non-NaN number with a rational bound (strictly
below). -/
def JsNum.ltQ (n : JsNum) (q : ℚ) : Bool :=
  match n with
  | .fin x => decide (x < q)
  | .inf p => !p

/-- JS comparison of a non-NaN number with a rational bound (strictly
above). -/
def JsNum.gtQ (n : JsNum) (q : ℚ) : Bool :=
  match n with
  | .fin x => decide (q < x)
  | .inf p => p

/-- The per-field error class `EnvError`: a key and a list of messages. -/
structure EnvError where
  key : String
  errors : List String
deriving DecidableEq

/-- A fault escaping the field resolver: either an `EnvError` (the only
kind the resolver and the parsers construct) or any other exception, as
raised by a user-supplied transform or validate function. -/
inductive Err where
  | fieldError (e : EnvError)
  | other (msg : String)
deriving DecidableEq

/-- Runtime value produced by the engine: the parsers return strings,
numbers, booleans, or a parsed JSON payload (represented by its source
text, see `jsJsonValid`). -/
inductive Value where
  | str (s : String)
  | num (n : JsNum)
  | bool (b : Bool)
  | json (raw : String)
deriving DecidableEq

/-- Modelled from the spec: the platform number-to-string conversion used
when a choices list is joined into an enum failure message; choices in
this development are strings, so only the `str` case is exercised. -/
def JsNum.jsShow : JsNum → String
  | .fin q => if q.den = 1 then toString q.num else toString q.num ++ "/" ++ toString q.den
  | .inf p => if p then "Infinity" else "-Infinity"

/-- Modelled from the spec: the platform `String(value)` conversion used
by `Array.prototype.join` in the enum failure message. -/
def Value.jsShow : Value → String
  | .str s => s
  | .num n => n.jsShow
  | .bool b => if b then "true" else "false"
  | .json raw => raw

/-- Modelled from the spec: "json: structured-data parse of the raw
text". The platform parser `JSON.parse` is outside src/; it is modelled
as a syntactic validity check (literals, numbers, quoted strings, and
bracketed composites checked shallowly). No claim depends on its
internals. -/
def jsJsonValid (s : String) : Bool :=
  let l := jsTrim s.toList
  decide (l = "null".toList ∨ l = "true".toList ∨ l = "false".toList)
  || (match l with
      | '-' :: r => (parseUnsignedDec r).isSome
      | _ => (parseUnsignedDec l).isSome)
  || (match l, l.getLast? with
      | '"' :: _ :: _, some c => c == '"'
      | _, _ => false)
  || (match l, l.getLast? with
      | c0 :: _ :: _, some c1 =>
        (c0 == Char.ofNat 123 && c1 == Char.ofNat 125) || (c0 == '[' && c1 == ']')
      | _, _ => false)

/-- Modelled from the spec: "url: must be parseable as an absolute URL
per standard URL grammar". The platform `URL` constructor is outside
src/; it is modelled as a scheme check (letters, then a colon, then a
non-empty remainder). No claim depends on its internals. -/
def jsUrlValid (s : String) : Bool :=
  let isLetter : Char → Bool := fun c =>
    decide (97 ≤ c.toNat ∧ c.toNat ≤ 122) || decide (65 ≤ c.toNat ∧ c.toNat ≤ 90)
  let scheme := s.toList.takeWhile isLetter
  let rest := s.toList.dropWhile isLetter
  !scheme.isEmpty &&
    (match rest with
     | ':' :: r => !r.isEmpty
     | _ => false)

/-- The `EnvType` union of supported kinds. -/
inductive EnvType where
  | string
  | number
  | boolean
  | json
  | url
  | port
  | enum
deriving DecidableEq

/-- The `validTypes.includes` test together with the cast in
`normalizeConfig`: which bare strings name a valid type. -/
def EnvType.ofString? (s : String) : Option EnvType :=
  if s = "string" then some EnvType.string
  else if s = "number" then some EnvType.number
  else if s = "boolean" then some EnvType.boolean
  else if s = "json" then some EnvType.json
  else if s = "url" then some EnvType.url
  else if s = "port" then some EnvType.port
  else if s = "enum" then some EnvType.enum
  else none

/-- Runtime result of a user `validate` callback: its TS type is
`boolean | string`, but the resolver branches on the runtime value, so
any other runtime value is kept as a third case. -/
inductive ValidateResult where
  | bool (b : Bool)
  | str (s : String)
  | other
deriving DecidableEq

/-- The `EnvVarConfig` record. Optional fields are `Option`; `none`
models the TS `undefined`. User callbacks may fail (`Except.error`),
modelling a thrown exception. -/
structure EnvVarConfig where
  key : String
  type : Option EnvType := none
  default : Option Value := none
  required : Option Bool := none
  validate : Option (Value → Except Err ValidateResult) := none
  transform : Option (Value → Except Err Value) := none
  choices : Option (List Value) := none
  description : Option String := none

/-- `parseString` (line 73): identity. -/
def parseString (raw : String) : String := raw

/-- `parseNumber` (lines 77-83): `Number(raw)`, failing on NaN. -/
def parseNumber (raw key : String) : Except EnvError JsNum :=
  match jsStrToNumber raw with
  | none => Except.error ⟨key, ["Expected a number, got \"" ++ raw ++ "\""]⟩
  | some num => Except.ok num

/-- `parseBoolean` (lines 85-90): lowercase, trim, then compare against
the two literal lists. -/
def parseBoolean (raw key : String) : Except EnvError Bool :=
  let lower := jsTrimStr (jsToLower raw)
  if lower ∈ ["true", "1", "yes", "on"] then Except.ok true
  else if lower ∈ ["false", "0", "no", "off"] then Except.ok false
  else Except.error ⟨key, ["Expected a boolean, got \"" ++ raw ++ "\". Use true/false, 1/0, yes/no, or on/off"]⟩

/-- `parseJson` (lines 92-98): platform JSON parse, failure mapped to an
`EnvError`. -/
def parseJson (raw key : String) : Except EnvError Value :=
  if jsJsonValid raw then Except.ok (Value.json raw)
  else Except.error ⟨key, ["Expected valid JSON, got \"" ++ raw ++ "\""]⟩

/-- `parseUrl` (lines 100-107): platform URL parse, returning the raw
string on success. -/
def parseUrl (raw key : String) : Except EnvError String :=
  if jsUrlValid raw then Except.ok raw
  else Except.error ⟨key, ["Expected a valid URL, got \"" ++ raw ++ "\""]⟩

/-- `parsePort` (lines 109-115): `Number(raw)`, then reject NaN,
non-integers, and values outside [0, 65535]. -/
def parsePort (raw key : String) : Except EnvError JsNum :=
  match jsStrToNumber raw with
  | none => Except.error ⟨key, ["Expected a port (0-65535), got \"" ++ raw ++ "\""]⟩
  | some num =>
    if !jsIsInteger num || num.ltQ 0 || num.gtQ 65535 then
      Except.error ⟨key, ["Expected a port (0-65535), got \"" ++ raw ++ "\""]⟩
    else Except.ok num

/-- `parseValue` (lines 131-145): dispatch on `config.type`, defaulting
to `string`; `enum` parses as a string passthrough. -/
def parseValue (raw : String) (config : EnvVarConfig) : Except EnvError Value :=
  let t := config.type.getD EnvType.string
  let key := config.key
  match t with
  | EnvType.string => Except.ok (Value.str (parseString raw))
  | EnvType.number => (parseNumber raw key).map Value.num
  | EnvType.boolean => (parseBoolean raw key).map Value.bool
  | EnvType.json => parseJson raw key
  | EnvType.url => (parseUrl raw key).map Value.str
  | EnvType.port => (parsePort raw key).map Value.num
  | EnvType.enum => Except.ok (Value.str (parseString raw))

/-- Absent branch of `env` (lines 164-172): default, then explicit
`required: false`, then the missing-required error. -/
def envAbsent (config : EnvVarConfig) : Except Err (Option Value) :=
  match config.default with
  | some d => Except.ok (some d)
  | none =>
    if config.required = some false then Except.ok none
    else Except.error (Err.fieldError ⟨config.key, ["Required but not set"]⟩)

/-- Enum membership check of `env` (lines 177-183): runs only when the
type is literally `enum` and a choices list is given. -/
def joinChoices (choices : List Value) : String :=
  String.intercalate ", " (choices.map Value.jsShow)

/-- Enum membership check of `env` (lines 177-183). -/
def enumCheck (config : EnvVarConfig) (raw : String) (value : Value) : Except EnvError Value :=
  match config.type, config.choices with
  | some EnvType.enum, some choices =>
    if value ∈ choices then Except.ok value
    else Except.error ⟨config.key, ["Expected one of [" ++ joinChoices choices ++ "], got \"" ++ raw ++ "\""]⟩
  | _, _ => Except.ok value

/-- Transform application of `env` (lines 186-188). -/
def transformStep (config : EnvVarConfig) (value : Value) : Except Err Value :=
  match config.transform with
  | some t => t value
  | none => Except.ok value

/-- Validation step of `env` (lines 191-199): branch on the runtime
result, `false` first, then any string, anything else succeeds. -/
def validateStep (config : EnvVarConfig) (value : Value) : Except Err (Option Value) :=
  match config.validate with
  | none => Except.ok (some value)
  | some f =>
    match f value with
    | Except.error e => Except.error e
    | Except.ok (ValidateResult.bool false) =>
      Except.error (Err.fieldError ⟨config.key, ["Failed custom validation"]⟩)
    | Except.ok (ValidateResult.str s) =>
      Except.error (Err.fieldError ⟨config.key, [s]⟩)
    | Except.ok _ => Except.ok (some value)

/-- Parse, enum check and transform of `env` on a present raw value
(lines 174-188). -/
def preValidate (config : EnvVarConfig) (raw : String) : Except Err Value :=
  match parseValue raw config with
  | Except.error e => Except.error (Err.fieldError e)
  | Except.ok value =>
    match enumCheck config raw value with
    | Except.error e => Except.error (Err.fieldError e)
    | Except.ok value2 => transformStep config value2

/-- Present branch of `env` (lines 174-201). -/
def envPresent (config : EnvVarConfig) (raw : String) : Except Err (Option Value) :=
  match preValidate config raw with
  | Except.error e => Except.error e
  | Except.ok value => validateStep config value

/-- The field resolver `env` (lines 158-202). The source mapping is an
explicit function (absent key = `none`); `raw === undefined || raw ===
""` selects the absent branch. A successful resolution carries `some`
value, or `none` for the absent-and-not-required `undefined` result. -/
def env (config : EnvVarConfig) (source : String → Option String) : Except Err (Option Value) :=
  match source config.key with
  | none => envAbsent config
  | some raw => if raw = "" then envAbsent config else envPresent config raw

/-- A schema entry: a full config or a bare string shorthand. -/
inductive SchemaEntry where
  | config (c : EnvVarConfig)
  | shorthand (s : String)

/-- `normalizeConfig` (lines 119-129): a bare valid type name becomes a
config with that type, any other string becomes a string-typed config,
and a full config gets its key defaulted to the entry name when falsy
(the empty string). -/
def normalizeConfig (input : SchemaEntry) (key : String) : EnvVarConfig :=
  match input with
  | SchemaEntry.shorthand s =>
    match EnvType.ofString? s with
    | some t => { key := key, type := some t }
    | none => { key := key, type := some EnvType.string }
  | SchemaEntry.config c => { c with key := if c.key = "" then key else c.key }

/-- A fault escaping `envSchema`: the aggregate `EnvValidationError`, or
a rethrown non-`EnvError` fault. -/
inductive SchemaErr where
  | validation (errors : List EnvError)
  | other (msg : String)
deriving DecidableEq

/-- Loop of `envSchema` (lines 235-252) with the result and error
accumulators made explicit: successes are recorded, `EnvError`s are
collected, any other fault is rethrown immediately; at the end a
non-empty collection is raised as one aggregate error. -/
def envSchemaGo (entries : List (String × SchemaEntry)) (source : String → Option String)
    (result : List (String × Option Value)) (errors : List EnvError) :
    Except SchemaErr (List (String × Option Value)) :=
  match entries with
  | [] => if errors.isEmpty then Except.ok result else Except.error (SchemaErr.validation errors)
  | (name, rawConfig) :: rest =>
    match env (normalizeConfig rawConfig name) source with
    | Except.ok v => envSchemaGo rest source (result ++ [(name, v)]) errors
    | Except.error (Err.fieldError e) => envSchemaGo rest source result (errors ++ [e])
    | Except.error (Err.other m) => Except.error (SchemaErr.other m)

/-- `envSchema` (lines 228-253): the schema is the declaration-ordered
list of entries. -/
def envSchema (schema : List (String × SchemaEntry)) (source : String → Option String) :
    Except SchemaErr (List (String × Option Value)) :=
  envSchemaGo schema source [] []

/-- `envString` (line 258), with the source made explicit. -/
def envString (key : String) (defaultValue : Option String) (source : String → Option String) :
    Except Err (Option Value) :=
  env { key := key, type := some EnvType.string, default := defaultValue.map Value.str } source

/-- `envNumber` (line 263). -/
def envNumber (key : String) (defaultValue : Option JsNum) (source : String → Option String) :
    Except Err (Option Value) :=
  env { key := key, type := some EnvType.number, default := defaultValue.map Value.num } source

/-- `envBool` (line 268). -/
def envBool (key : String) (defaultValue : Option Bool) (source : String → Option String) :
    Except Err (Option Value) :=
  env { key := key, type := some EnvType.boolean, default := defaultValue.map Value.bool } source

/-- `envPort` (line 273). -/
def envPort (key : String) (defaultValue : Option JsNum) (source : String → Option String) :
    Except Err (Option Value) :=
  env { key := key, type := some EnvType.port, default := defaultValue.map Value.num } source

/-- `envUrl` (line 278). -/
def envUrl (key : String) (defaultValue : Option String) (source : String → Option String) :
    Except Err (Option Value) :=
  env { key := key, type := some EnvType.url, default := defaultValue.map Value.str } source

/-- `envEnum` (line 288). -/
def envEnum (key : String) (choices : List String) (defaultValue : Option String)
    (source : String → Option String) : Except Err (Option Value) :=
  env { key := key, type := some EnvType.enum, choices := some (choices.map Value.str),
        default := defaultValue.map Value.str } source

/-- Absolute-value transform of the claim's example. -/
def absTransform : Value → Except Err Value := fun v =>
  match v with
  | Value.num (JsNum.fin q) => Except.ok (Value.num (JsNum.fin |q|))
  | _ => Except.ok v

/-- Strict-positivity validator of the claim's example. -/
def posValidate : Value → Except Err ValidateResult := fun v =>
  match v with
  | Value.num (JsNum.fin q) => Except.ok (ValidateResult.bool (decide (0 < q)))
  | _ => Except.ok (ValidateResult.bool false)

/-- Config of the claim's example: kind number, transform abs, validate
positivity. -/
def c3ExampleConfig : EnvVarConfig :=
  { key := "N", type := some EnvType.number,
    transform := some absTransform, validate := some posValidate }

/-- Source of the claim's example: N is the raw string "-5". -/
def c3ExampleSource : String → Option String := fun k => if k = "N" then some "-5" else none

/-- A validate callback returning the empty string. -/
def c4Validate : Value → Except Err ValidateResult := fun _ =>
  Except.ok (ValidateResult.str "")

/-- Config whose validate returns the empty string. -/
def c4Config : EnvVarConfig := { key := "K", validate := some c4Validate }

/-- Source mapping K to the raw value "x". -/
def c4Source : String → Option String := fun k => if k = "K" then some "x" else none

/-- A validate callback returning `true`. -/
def c4OkValidate : Value → Except Err ValidateResult := fun _ =>
  Except.ok (ValidateResult.bool true)

/-- Config whose validate returns `true`. -/
def c4OkConfig : EnvVarConfig := { key := "K", validate := some c4OkValidate }

/-- Enum config of the witness: choices a and b. -/
def c8Config : EnvVarConfig :=
  { key := "E", type := some EnvType.enum, choices := some [Value.str "a", Value.str "b"] }

/-- Whether a resolver outcome is anything but a rethrown non-`EnvError`
fault. -/
def notOtherFault (r : Except Err (Option Value)) : Bool :=
  match r with
  | Except.error (Err.other _) => false
  | _ => true

/-- Whether no entry of the schema produces a non-`EnvError` fault. -/
def schemaNoOther (schema : List (String × SchemaEntry)) (source : String → Option String) :
    Bool :=
  schema.all fun p => notOtherFault (env (normalizeConfig p.2 p.1) source)

/-- The `EnvError` of a resolver outcome, if that is what it is. -/
def fieldErrorOf? (r : Except Err (Option Value)) : Option EnvError :=
  match r with
  | Except.error err =>
    match err with
    | Err.fieldError e => some e
    | Err.other _ => none
  | Except.ok _ => none

/-- The named result of a resolver outcome, if it succeeded. -/
def resultOf? (name : String) (r : Except Err (Option Value)) : Option (String × Option Value) :=
  match r with
  | Except.ok v => some (name, v)
  | Except.error _ => none

/-- The `EnvError`s of the schema's entries, in declaration order. -/
def schemaFieldErrors (schema : List (String × SchemaEntry)) (source : String → Option String) :
    List EnvError :=
  match schema with
  | [] => []
  | (name, rc) :: rest =>
    (fieldErrorOf? (env (normalizeConfig rc name) source)).toList ++
      schemaFieldErrors rest source

/-- The successfully resolved entries of the schema, in declaration
order. -/
def schemaResults (schema : List (String × SchemaEntry)) (source : String → Option String) :
    List (String × Option Value) :=
  match schema with
  | [] => []
  | (name, rc) :: rest =>
    (resultOf? name (env (normalizeConfig rc name) source)).toList ++
      schemaResults rest source

/-- Schema of the witness: three required fields with no defaults. -/
def c1SchemaMissing : List (String × SchemaEntry) :=
  [("A", SchemaEntry.config { key := "A", type := some EnvType.number }),
   ("B", SchemaEntry.config { key := "B", type := some EnvType.url }),
   ("C", SchemaEntry.config { key := "C", type := some EnvType.port })]

/-- Config whose transform throws a non-`EnvError` fault. -/
def c1BoomConfig : EnvVarConfig :=
  { key := "G", type := some EnvType.string,
    transform := some (fun _ => Except.error (Err.other "boom")) }

/-- Schema of the witness whose single entry's transform throws a
non-`EnvError` fault. -/
def c1SchemaBoom : List (String × SchemaEntry) :=
  [("G", SchemaEntry.config c1BoomConfig)]

/-- Source of the boom witness: G is present. -/
def c1SourceG : String → Option String := fun k => if k = "G" then some "x" else none

/-- Body of a plain numeric literal, following the claim's words: digits
with an optional dot-separated fractional part ("integers, decimals"). -/
def decimalBody (l : List Char) : Bool :=
  let ip := l.takeWhile isDigitChar
  let rest := l.dropWhile isDigitChar
  match rest with
  | [] => !ip.isEmpty
  | c :: fp => decide (c = '.') && (!ip.isEmpty && (!fp.isEmpty && fp.all isDigitChar))

/-- A valid plain numeric literal, following the claim's words
("integers, negatives, decimals"): an optional leading minus then a
decimal body. -/
def specNumericLiteral (s : String) : Bool :=
  match s.toList with
  | [] => false
  | c :: rest => if c = '-' then decimalBody rest else decimalBody (c :: rest)

-- ── Theorems ─────────────────────────────────────────────────────────

/-- A list none of whose elements satisfy the predicate is unchanged by
`dropWhile`. -/
theorem dropWhile_eq_self_of_all {α : Type} {p : α → Bool} {l : List α}
    (h : ∀ c ∈ l, p c = false) : l.dropWhile p = l := by
  cases l with
  | nil => rfl
  | cons a t => simp [List.dropWhile_cons, h a (List.mem_cons_self a t)]

/-- A list all of whose elements satisfy the predicate is unchanged by
`takeWhile` and emptied by `dropWhile`. -/
theorem takeWhile_eq_self_of_all {α : Type} {p : α → Bool} {l : List α}
    (h : ∀ c ∈ l, p c = true) : l.takeWhile p = l ∧ l.dropWhile p = [] := by
  induction l with
  | nil => exact ⟨rfl, rfl⟩
  | cons a t ih =>
    have ha := h a (List.mem_cons_self a t)
    have ht := ih fun c hc => h c (List.mem_cons_of_mem a hc)
    simp [List.takeWhile_cons, List.dropWhile_cons, ha, ht.1, ht.2]

/-- Trimming does nothing to a list that contains no JS whitespace. -/
theorem jsTrim_eq_self {l : List Char} (h : ∀ c ∈ l, jsWhitespaceChar c = false) :
    jsTrim l = l := by
  unfold jsTrim
  rw [dropWhile_eq_self_of_all h,
    dropWhile_eq_self_of_all fun c hc => h c (List.mem_reverse.mp hc),
    List.reverse_reverse]

/-- On an absent or empty raw value `env` runs its absent branch. -/
theorem env_absent_eq (config : EnvVarConfig) (source : String → Option String)
    (habs : source config.key = none ∨ source config.key = some "") :
    env config source = envAbsent config := by
  rcases habs with h | h <;> simp [env, h]

/-- On a present non-empty raw value `env` runs its present branch. -/
theorem env_present_eq (config : EnvVarConfig) (source : String → Option String)
    (raw : String) (hraw : source config.key = some raw) (hne : raw ≠ "") :
    env config source = envPresent config raw := by
  simp [env, hraw, hne]

/-- C2: an absent key and an empty-string value are treated alike; with a
default (any defined value, however falsy) `env` returns the default
immediately, else with `required` explicitly `false` it returns the
absent result, else it fails with the single-message error "Required but
not set". -/
theorem c2_absent_default_required (config : EnvVarConfig) (source : String → Option String)
    (habs : source config.key = none ∨ source config.key = some "") :
    (∀ d, config.default = some d → env config source = Except.ok (some d)) ∧
    (config.default = none → config.required = some false → env config source = Except.ok none) ∧
    (config.default = none → config.required ≠ some false →
      env config source = Except.error (Err.fieldError ⟨config.key, ["Required but not set"]⟩)) := by
  have henv := env_absent_eq config source habs
  refine ⟨?_, ?_, ?_⟩
  · intro d hd; rw [henv]; simp [envAbsent, hd]
  · intro hd hr; rw [henv]; simp [envAbsent, hd, hr]
  · intro hd hr; rw [henv]; simp [envAbsent, hd, hr]

/-- Witness for C2 at concrete inputs: a missing required key fails, an
empty-string raw value still takes the (falsy, empty-string) default,
and `required: false` with no default yields the absent result. -/
theorem c2_witness :
    env { key := "K" } (fun _ => none) =
      Except.error (Err.fieldError ⟨"K", ["Required but not set"]⟩) ∧
    env { key := "D", default := some (Value.str "") } (fun _ => some "") =
      Except.ok (some (Value.str "")) ∧
    env { key := "R", required := some false } (fun _ => none) = Except.ok none :=
  ⟨(c2_absent_default_required { key := "K" } (fun _ => none) (Or.inl rfl)).2.2 rfl (by decide),
   (c2_absent_default_required { key := "D", default := some (Value.str "") }
     (fun _ => some "") (Or.inr rfl)).1 (Value.str "") rfl,
   (c2_absent_default_required { key := "R", required := some false }
     (fun _ => none) (Or.inl rfl)).2.1 rfl rfl⟩

/-- Strings accepted as true are not accepted as false. -/
theorem true_list_not_false_list {s : String}
    (h : s ∈ (["true", "1", "yes", "on"] : List String)) :
    s ∉ (["false", "0", "no", "off"] : List String) := by
  simp only [List.mem_cons, List.not_mem_nil, or_false] at h ⊢
  rcases h with rfl | rfl | rfl | rfl <;> decide

/-- C7: the boolean parser lowercases and trims the raw string, answers
true exactly on true/1/yes/on, false exactly on false/0/no/off, and
fails on every other literal. -/
theorem c7_parseBoolean (raw key : String) :
    (parseBoolean raw key = Except.ok true ↔
      jsTrimStr (jsToLower raw) ∈ (["true", "1", "yes", "on"] : List String)) ∧
    (parseBoolean raw key = Except.ok false ↔
      jsTrimStr (jsToLower raw) ∈ (["false", "0", "no", "off"] : List String)) ∧
    ((∃ e, parseBoolean raw key = Except.error e) ↔
      (jsTrimStr (jsToLower raw) ∉ (["true", "1", "yes", "on"] : List String) ∧
       jsTrimStr (jsToLower raw) ∉ (["false", "0", "no", "off"] : List String))) := by
  by_cases h1 : jsTrimStr (jsToLower raw) ∈ (["true", "1", "yes", "on"] : List String)
  · have h2 := true_list_not_false_list h1
    simp [parseBoolean, h1, h2]
  · by_cases h2 : jsTrimStr (jsToLower raw) ∈ (["false", "0", "no", "off"] : List String)
    · simp [parseBoolean, h1, h2]
    · simp [parseBoolean, h1, h2]

/-- Witness for C7 at concrete inputs: " TRUE " parses to true, "off" to
false, and "maybe" fails. -/
theorem c7_witness :
    parseBoolean " TRUE " "K" = Except.ok true ∧
    parseBoolean "off" "K" = Except.ok false ∧
    (∃ e, parseBoolean "maybe" "K" = Except.error e) :=
  ⟨(c7_parseBoolean " TRUE " "K").1.mpr (by decide),
   (c7_parseBoolean "off" "K").2.1.mpr (by decide),
   (c7_parseBoolean "maybe" "K").2.2.mpr (by decide)⟩

/-- C9: a shorthand schema entry that is a bare valid type name
normalizes to exactly the explicit config with the entry name as key and
that type, and any other string normalizes to the string-typed config;
in both cases it therefore resolves identically to the explicit
config. -/
theorem c9_shorthand_configs (s name : String) :
    (∀ t, EnvType.ofString? s = some t →
      normalizeConfig (SchemaEntry.shorthand s) name = { key := name, type := some t } ∧
      ∀ source, env (normalizeConfig (SchemaEntry.shorthand s) name) source =
        env { key := name, type := some t } source) ∧
    (EnvType.ofString? s = none →
      normalizeConfig (SchemaEntry.shorthand s) name =
        { key := name, type := some EnvType.string } ∧
      ∀ source, env (normalizeConfig (SchemaEntry.shorthand s) name) source =
        env { key := name, type := some EnvType.string } source) := by
  constructor
  · intro t ht
    have h : normalizeConfig (SchemaEntry.shorthand s) name = { key := name, type := some t } := by
      simp [normalizeConfig, ht]
    exact ⟨h, fun source => by rw [h]⟩
  · intro ht
    have h : normalizeConfig (SchemaEntry.shorthand s) name =
        { key := name, type := some EnvType.string } := by
      simp [normalizeConfig, ht]
    exact ⟨h, fun source => by rw [h]⟩

/-- Witness for C9 at concrete inputs: the shorthands of the claim's
example, a valid type name and an arbitrary other string. -/
theorem c9_witness :
    normalizeConfig (SchemaEntry.shorthand "number") "BAR" =
      { key := "BAR", type := some EnvType.number } ∧
    normalizeConfig (SchemaEntry.shorthand "hello") "FOO" =
      { key := "FOO", type := some EnvType.string } :=
  ⟨((c9_shorthand_configs "number" "BAR").1 EnvType.number rfl).1,
   ((c9_shorthand_configs "hello" "FOO").2 rfl).1⟩

/-- C3: on a present raw value the validate step receives exactly the
output of the transform (transform strictly before validate), a value
obtained through the default short-circuit or through the
absent-and-not-required path is returned without either callback ever
influencing the outcome, and the claim's example (number "-5", transform
abs, validate positivity) resolves to 5. -/
theorem c3_transform_before_validate :
    (∀ (config : EnvVarConfig) (source : String → Option String) (raw : String) (v0 : Value)
      (t : Value → Except Err Value) (f : Value → Except Err ValidateResult),
      source config.key = some raw → raw ≠ "" →
      config.transform = some t → config.validate = some f →
      parseValue raw config = Except.ok v0 → enumCheck config raw v0 = Except.ok v0 →
      (∀ v1, t v0 = Except.ok v1 → env config source = validateStep config v1) ∧
      (∀ e, t v0 = Except.error e → env config source = Except.error e)) ∧
    (∀ (config : EnvVarConfig) (source : String → Option String) (d : Value),
      (source config.key = none ∨ source config.key = some "") →
      config.default = some d → env config source = Except.ok (some d)) ∧
    (∀ (config : EnvVarConfig) (source : String → Option String),
      (source config.key = none ∨ source config.key = some "") →
      config.default = none → config.required = some false →
      env config source = Except.ok none) ∧
    env c3ExampleConfig c3ExampleSource = Except.ok (some (Value.num (JsNum.fin 5))) := by
  refine ⟨?_, ?_, ?_, by decide⟩
  · intro config source raw v0 t f hraw hne htr _ hparse henum
    have henv := env_present_eq config source raw hraw hne
    constructor
    · intro v1 hv1
      rw [henv]
      simp [envPresent, preValidate, hparse, henum, transformStep, htr, hv1]
    · intro e he
      rw [henv]
      simp [envPresent, preValidate, hparse, henum, transformStep, htr, he]
  · intro config source d habs hd
    rw [env_absent_eq config source habs]
    simp [envAbsent, hd]
  · intro config source habs hd hr
    rw [env_absent_eq config source habs]
    simp [envAbsent, hd, hr]

/-- Witness for C3 at the example inputs: the resolver's outcome is the
validate step applied to the transform's output 5, not to the parsed
value -5. -/
theorem c3_witness :
    env c3ExampleConfig c3ExampleSource = validateStep c3ExampleConfig (Value.num (JsNum.fin 5)) :=
  (c3_transform_before_validate.1 c3ExampleConfig c3ExampleSource "-5"
    (Value.num (JsNum.fin (-5))) absTransform posValidate rfl (by decide) rfl rfl
    (by decide) rfl).1 (Value.num (JsNum.fin 5)) (by decide)

/-- Counterexample to C4 as stated: the validate callback returns the
empty string — neither `false` nor a non-empty string, so the claim
demands success — yet the resolver fails, with that empty string as the
message, because the source tests `typeof result === "string"` with no
emptiness check. -/
theorem c4_counterexample :
    c4Validate (Value.str "x") = Except.ok (ValidateResult.str "") ∧
    env c4Config c4Source = Except.error (Err.fieldError ⟨"K", [""]⟩) :=
  ⟨rfl, by decide⟩

/-- C4 as amended: with a present raw value resolved up to the validate
step as `v`, validate returning `false` fails with "Failed custom
validation", validate returning any string (empty included) fails with
exactly that string as the message, and any other result (notably
`true`) succeeds with the value. -/
theorem c4_validate_result (config : EnvVarConfig) (source : String → Option String)
    (raw : String) (v : Value) (f : Value → Except Err ValidateResult)
    (hraw : source config.key = some raw) (hne : raw ≠ "")
    (hpre : preValidate config raw = Except.ok v)
    (hf : config.validate = some f) :
    (f v = Except.ok (ValidateResult.bool false) →
      env config source =
        Except.error (Err.fieldError ⟨config.key, ["Failed custom validation"]⟩)) ∧
    (∀ s, f v = Except.ok (ValidateResult.str s) →
      env config source = Except.error (Err.fieldError ⟨config.key, [s]⟩)) ∧
    (∀ r, f v = Except.ok r → r ≠ ValidateResult.bool false →
      (∀ s, r ≠ ValidateResult.str s) →
      env config source = Except.ok (some v)) := by
  have henv := env_present_eq config source raw hraw hne
  rw [henv]
  unfold envPresent
  rw [hpre]
  refine ⟨?_, ?_, ?_⟩
  · intro h; simp [validateStep, hf, h]
  · intro s h; simp [validateStep, hf, h]
  · intro r hr hb hs
    cases r with
    | bool b =>
      cases b with
      | false => exact absurd rfl hb
      | true => simp [validateStep, hf, hr]
    | str s => exact absurd rfl (hs s)
    | other => simp [validateStep, hf, hr]

/-- Witness for the amended C4 at concrete inputs: a validate returning
the empty string fails with that empty message, and a validate returning
`true` succeeds. -/
theorem c4_witness :
    env c4Config c4Source = Except.error (Err.fieldError ⟨"K", [""]⟩) ∧
    env c4OkConfig c4Source = Except.ok (some (Value.str "x")) :=
  ⟨(c4_validate_result c4Config c4Source "x" (Value.str "x") c4Validate rfl (by decide)
      rfl rfl).2.1 "" rfl,
   (c4_validate_result c4OkConfig c4Source "x" (Value.str "x") c4OkValidate rfl (by decide)
      rfl rfl).2.2 (ValidateResult.bool true) rfl (by decide)
      (fun s h => ValidateResult.noConfusion h)⟩

/-- C8: with kind enum and a choices list, a present raw value passes
the membership check exactly when it belongs to the choices (and, with
no further transform or validation, is returned as-is); a non-member
fails with the message listing the choices in order and the offending
raw string. -/
theorem c8_enum_membership (config : EnvVarConfig) (source : String → Option String)
    (raw : String) (choices : List Value)
    (htype : config.type = some EnvType.enum) (hch : config.choices = some choices)
    (hraw : source config.key = some raw) (hne : raw ≠ "") :
    (Value.str raw ∈ choices →
      enumCheck config raw (Value.str raw) = Except.ok (Value.str raw) ∧
      (config.transform = none → config.validate = none →
        env config source = Except.ok (some (Value.str raw)))) ∧
    (Value.str raw ∉ choices →
      env config source = Except.error (Err.fieldError ⟨config.key,
        ["Expected one of [" ++ joinChoices choices ++ "], got \"" ++ raw ++ "\""]⟩)) := by
  have henv := env_present_eq config source raw hraw hne
  have hparse : parseValue raw config = Except.ok (Value.str raw) := by
    simp [parseValue, htype, parseString]
  constructor
  · intro hmem
    have hec : enumCheck config raw (Value.str raw) = Except.ok (Value.str raw) := by
      simp [enumCheck, htype, hch, hmem]
    refine ⟨hec, fun ht hv => ?_⟩
    rw [henv]
    simp [envPresent, preValidate, hparse, hec, transformStep, ht, validateStep, hv]
  · intro hmem
    rw [henv]
    simp [envPresent, preValidate, hparse, enumCheck, htype, hch, hmem]

/-- Witness for C8 at concrete inputs: "b" is accepted and returned, "d"
is rejected with the message listing the choices in order. -/
theorem c8_witness :
    env c8Config (fun k => if k = "E" then some "b" else none) =
      Except.ok (some (Value.str "b")) ∧
    env c8Config (fun k => if k = "E" then some "d" else none) =
      Except.error (Err.fieldError ⟨"E", ["Expected one of [a, b], got \"d\""]⟩) :=
  ⟨((c8_enum_membership c8Config (fun k => if k = "E" then some "b" else none) "b"
      [Value.str "a", Value.str "b"] rfl rfl rfl (by decide)).1 (by decide)).2 rfl rfl,
   (c8_enum_membership c8Config (fun k => if k = "E" then some "d" else none) "d"
      [Value.str "a", Value.str "b"] rfl rfl rfl (by decide)).2 (by decide)⟩

/-- Every error constructed by the number parser carries one message. -/
theorem parseNumber_error_len {raw key : String} {e : EnvError}
    (h : parseNumber raw key = Except.error e) : e.errors.length = 1 := by
  cases hj : jsStrToNumber raw
  · simp only [parseNumber, hj] at h
    injection h with h2
    subst h2
    rfl
  · simp [parseNumber, hj] at h

/-- Every error constructed by the boolean parser carries one message. -/
theorem parseBoolean_error_len {raw key : String} {e : EnvError}
    (h : parseBoolean raw key = Except.error e) : e.errors.length = 1 := by
  simp only [parseBoolean] at h
  split at h
  · simp at h
  · split at h
    · simp at h
    · injection h with h2
      subst h2
      rfl

/-- Every error constructed by the JSON parser carries one message. -/
theorem parseJson_error_len {raw key : String} {e : EnvError}
    (h : parseJson raw key = Except.error e) : e.errors.length = 1 := by
  simp only [parseJson] at h
  split at h
  · simp at h
  · injection h with h2
    subst h2
    rfl

/-- Every error constructed by the URL parser carries one message. -/
theorem parseUrl_error_len {raw key : String} {e : EnvError}
    (h : parseUrl raw key = Except.error e) : e.errors.length = 1 := by
  simp only [parseUrl] at h
  split at h
  · simp at h
  · injection h with h2
    subst h2
    rfl

/-- Every error constructed by the port parser carries one message. -/
theorem parsePort_error_len {raw key : String} {e : EnvError}
    (h : parsePort raw key = Except.error e) : e.errors.length = 1 := by
  cases hj : jsStrToNumber raw
  · simp only [parsePort, hj] at h
    injection h with h2
    subst h2
    rfl
  · simp only [parsePort, hj] at h
    split at h
    · injection h with h2
      subst h2
      rfl
    · simp at h

/-- Every error constructed by the type-dispatching parser carries one
message. -/
theorem parseValue_error_len {raw : String} {config : EnvVarConfig} {e : EnvError}
    (h : parseValue raw config = Except.error e) : e.errors.length = 1 := by
  simp only [parseValue] at h
  cases ht : config.type.getD EnvType.string <;> rw [ht] at h
  case string => simp at h
  case number =>
    cases hn : parseNumber raw config.key <;> rw [hn] at h <;> simp [Except.map] at h
    · subst h; exact parseNumber_error_len hn
  case boolean =>
    cases hn : parseBoolean raw config.key <;> rw [hn] at h <;> simp [Except.map] at h
    · subst h; exact parseBoolean_error_len hn
  case json => exact parseJson_error_len h
  case url =>
    cases hn : parseUrl raw config.key <;> rw [hn] at h <;> simp [Except.map] at h
    · subst h; exact parseUrl_error_len hn
  case port =>
    cases hn : parsePort raw config.key <;> rw [hn] at h <;> simp [Except.map] at h
    · subst h; exact parsePort_error_len hn
  case enum => simp at h

/-- Every error constructed by the enum membership check carries one
message. -/
theorem enumCheck_error_len {config : EnvVarConfig} {raw : String} {value : Value}
    {e : EnvError} (h : enumCheck config raw value = Except.error e) :
    e.errors.length = 1 := by
  simp only [enumCheck] at h
  split at h
  · split at h
    · simp at h
    · injection h with h2
      subst h2
      rfl
  · simp at h

/-- Every error constructed by the absent branch carries one message. -/
theorem envAbsent_fieldError_len {config : EnvVarConfig} {e : EnvError}
    (h : envAbsent config = Except.error (Err.fieldError e)) : e.errors.length = 1 := by
  simp only [envAbsent] at h
  split at h
  · simp at h
  · split at h
    · simp at h
    · injection h with h2
      injection h2 with h3
      subst h3
      rfl

/-- Every `EnvError` escaping parse, enum check and transform carries
one message, provided the user transform does not itself throw an
`EnvError`. -/
theorem preValidate_fieldError_len {config : EnvVarConfig} {raw : String} {e : EnvError}
    (hT : ∀ t, config.transform = some t → ∀ v e', t v ≠ Except.error (Err.fieldError e'))
    (h : preValidate config raw = Except.error (Err.fieldError e)) : e.errors.length = 1 := by
  simp only [preValidate] at h
  cases hp : parseValue raw config <;> simp only [hp] at h
  · injection h with h2
    injection h2 with h3
    rw [← h3]
    exact parseValue_error_len hp
  · rename_i value
    cases hec : enumCheck config raw value <;> simp only [hec] at h
    · injection h with h2
      injection h2 with h3
      rw [← h3]
      exact enumCheck_error_len hec
    · rename_i value2
      simp only [transformStep] at h
      cases htr : config.transform <;> simp only [htr] at h
      · exact Except.noConfusion h
      · rename_i t
        exact absurd h (hT t htr value2 e)

/-- Every `EnvError` escaping the validate step carries one message,
provided the user validate does not itself throw an `EnvError`. -/
theorem validateStep_fieldError_len {config : EnvVarConfig} {v : Value} {e : EnvError}
    (hV : ∀ f, config.validate = some f → ∀ v' e', f v' ≠ Except.error (Err.fieldError e'))
    (h : validateStep config v = Except.error (Err.fieldError e)) : e.errors.length = 1 := by
  simp only [validateStep] at h
  cases hf : config.validate <;> simp only [hf] at h
  · exact Except.noConfusion h
  · rename_i f
    cases hr : f v <;> simp only [hr] at h
    · rename_i e2
      injection h with h2
      exact absurd (h2 ▸ hr) (hV f hf v e)
    · rename_i r
      cases r with
      | bool b =>
        cases b with
        | false =>
          injection h with h2
          injection h2 with h3
          subst h3
          rfl
        | true => exact Except.noConfusion h
      | str s =>
        injection h with h2
        injection h2 with h3
        subst h3
        rfl
      | other => exact Except.noConfusion h

/-- C10: whenever the resolver fails with an `EnvError` that it (or a
type parser) constructed — i.e. the user callbacks do not themselves
throw `EnvError`s — the error's messages list has length exactly one. -/
theorem c10_single_message (config : EnvVarConfig) (source : String → Option String)
    (e : EnvError)
    (hT : ∀ t, config.transform = some t → ∀ v e', t v ≠ Except.error (Err.fieldError e'))
    (hV : ∀ f, config.validate = some f → ∀ v e', f v ≠ Except.error (Err.fieldError e'))
    (h : env config source = Except.error (Err.fieldError e)) :
    e.errors.length = 1 := by
  simp only [env] at h
  cases hs : source config.key <;> simp only [hs] at h
  · exact envAbsent_fieldError_len h
  · rename_i raw
    by_cases hraw : raw = ""
    · rw [if_pos hraw] at h
      exact envAbsent_fieldError_len h
    · rw [if_neg hraw] at h
      simp only [envPresent] at h
      cases hp : preValidate config raw <;> simp only [hp] at h
      · injection h with h2
        exact preValidate_fieldError_len hT (h2 ▸ hp)
      · exact validateStep_fieldError_len hV h

/-- Witness for C10 at a concrete input: the missing-required error of a
plain config has exactly one message. -/
theorem c10_witness :
    env { key := "K" } (fun _ => none) =
      Except.error (Err.fieldError ⟨"K", ["Required but not set"]⟩) ∧
    (⟨"K", ["Required but not set"]⟩ : EnvError).errors.length = 1 :=
  ⟨by decide,
   c10_single_message { key := "K" } (fun _ => none) ⟨"K", ["Required but not set"]⟩
     (fun t ht => Option.noConfusion ht) (fun f hf => Option.noConfusion hf) (by decide)⟩

/-- The aggregation loop, characterized on arbitrary accumulators: when
no entry rethrows a non-`EnvError` fault, it returns the accumulated and
newly resolved entries if no field error (old or new) exists, and
otherwise fails with exactly the accumulated and newly collected field
errors in order. -/
theorem envSchemaGo_spec (schema : List (String × SchemaEntry)) (source : String → Option String)
    (acc : List (String × Option Value)) (errs : List EnvError)
    (hno : schemaNoOther schema source = true) :
    envSchemaGo schema source acc errs =
      if errs ++ schemaFieldErrors schema source = [] then
        Except.ok (acc ++ schemaResults schema source)
      else Except.error (SchemaErr.validation (errs ++ schemaFieldErrors schema source)) := by
  induction schema generalizing acc errs with
  | nil =>
    by_cases herrs : errs = [] <;>
      simp [envSchemaGo, schemaFieldErrors, schemaResults, herrs]
  | cons p rest ih =>
    obtain ⟨name, rc⟩ := p
    rw [schemaNoOther, List.all_cons, Bool.and_eq_true] at hno
    obtain ⟨hno1, hno2⟩ := hno
    cases he : env (normalizeConfig rc name) source with
    | ok v =>
      have hfe : fieldErrorOf? (env (normalizeConfig rc name) source) = none := by rw [he]; rfl
      have hre : resultOf? name (env (normalizeConfig rc name) source) = some (name, v) := by
        rw [he]; rfl
      simp only [envSchemaGo, he]
      rw [ih (acc ++ [(name, v)]) errs hno2]
      simp [schemaFieldErrors, schemaResults, hfe, hre, List.append_assoc]
    | error err =>
      cases err with
      | fieldError e =>
        have hfe : fieldErrorOf? (env (normalizeConfig rc name) source) = some e := by rw [he]; rfl
        have hre : resultOf? name (env (normalizeConfig rc name) source) = none := by rw [he]; rfl
        simp only [envSchemaGo, he]
        rw [ih acc (errs ++ [e]) hno2]
        simp [schemaFieldErrors, schemaResults, hfe, hre, List.append_assoc]
      | other m =>
        rw [he] at hno1
        simp [notOtherFault] at hno1

/-- When no entry fails at all, every entry contributes one result. -/
theorem schemaResults_length (schema : List (String × SchemaEntry))
    (source : String → Option String) :
    schemaNoOther schema source = true → schemaFieldErrors schema source = [] →
    (schemaResults schema source).length = schema.length := by
  induction schema with
  | nil => intro _ _; rfl
  | cons p rest ih =>
    intro hno herr
    obtain ⟨name, rc⟩ := p
    rw [schemaNoOther, List.all_cons, Bool.and_eq_true] at hno
    obtain ⟨hno1, hno2⟩ := hno
    cases he : env (normalizeConfig rc name) source with
    | ok v =>
      have hfe : fieldErrorOf? (env (normalizeConfig rc name) source) = none := by rw [he]; rfl
      have hre : resultOf? name (env (normalizeConfig rc name) source) = some (name, v) := by
        rw [he]; rfl
      have herr2 : schemaFieldErrors rest source = [] := by
        simpa [schemaFieldErrors, hfe] using herr
      have hres : schemaResults ((name, rc) :: rest) source =
          (name, v) :: schemaResults rest source := by
        simp [schemaResults, hre]
      rw [hres, List.length_cons, ih hno2 herr2, List.length_cons]
    | error err =>
      cases err with
      | fieldError e =>
        have hfe : fieldErrorOf? (env (normalizeConfig rc name) source) = some e := by rw [he]; rfl
        simp [schemaFieldErrors, hfe] at herr
      | other m =>
        rw [he] at hno1
        simp [notOtherFault] at hno1

/-- The aggregation loop rethrows a non-`EnvError` fault immediately,
whatever has been accumulated, as long as no earlier entry also faults
that way. -/
theorem envSchemaGo_other (pre : List (String × SchemaEntry)) (source : String → Option String)
    (name : String) (rc : SchemaEntry) (post : List (String × SchemaEntry)) (m : String)
    (acc : List (String × Option Value)) (errs : List EnvError)
    (hno : schemaNoOther pre source = true)
    (hm : env (normalizeConfig rc name) source = Except.error (Err.other m)) :
    envSchemaGo (pre ++ (name, rc) :: post) source acc errs =
      Except.error (SchemaErr.other m) := by
  induction pre generalizing acc errs with
  | nil => simp [envSchemaGo, hm]
  | cons q rest ih =>
    obtain ⟨qn, qc⟩ := q
    rw [schemaNoOther, List.all_cons, Bool.and_eq_true] at hno
    obtain ⟨hno1, hno2⟩ := hno
    cases he : env (normalizeConfig qc qn) source with
    | ok v =>
      simp only [List.cons_append, envSchemaGo, he]
      exact ih (acc ++ [(qn, v)]) errs hno2
    | error err =>
      cases err with
      | fieldError e =>
        simp only [List.cons_append, envSchemaGo, he]
        exact ih acc (errs ++ [e]) hno2
      | other m2 =>
        rw [he] at hno1
        simp [notOtherFault] at hno1

/-- C1: when no entry rethrows a non-`EnvError` fault, `envSchema`
returns one result per field if no field fails, and otherwise fails with
one aggregate error holding exactly the failing fields' `EnvError`s in
declaration order (hence never empty); and any non-`EnvError` fault
propagates immediately, bypassing aggregation. -/
theorem c1_envSchema_aggregates (schema : List (String × SchemaEntry))
    (source : String → Option String) :
    (schemaNoOther schema source = true →
      (schemaFieldErrors schema source = [] →
        envSchema schema source = Except.ok (schemaResults schema source) ∧
        (schemaResults schema source).length = schema.length) ∧
      (schemaFieldErrors schema source ≠ [] →
        envSchema schema source =
          Except.error (SchemaErr.validation (schemaFieldErrors schema source)))) ∧
    (∀ pre name rc m post,
      schema = pre ++ (name, rc) :: post →
      schemaNoOther pre source = true →
      env (normalizeConfig rc name) source = Except.error (Err.other m) →
      envSchema schema source = Except.error (SchemaErr.other m)) := by
  constructor
  · intro hno
    have hgo := envSchemaGo_spec schema source [] [] hno
    constructor
    · intro herr
      rw [envSchema, hgo]
      simp [herr, schemaResults_length schema source hno herr]
    · intro herr
      rw [envSchema, hgo]
      simp [herr]
  · intro pre name rc m post hschema hno hm
    rw [envSchema, hschema]
    exact envSchemaGo_other pre source name rc post m [] [] hno hm

/-- Witness for C1 at concrete inputs: three missing required fields
produce one aggregate error with exactly their three field errors in
declaration order, and a non-`EnvError` fault from a transform
propagates as-is. -/
theorem c1_witness :
    envSchema c1SchemaMissing (fun _ => none) =
      Except.error (SchemaErr.validation
        [⟨"A", ["Required but not set"]⟩, ⟨"B", ["Required but not set"]⟩,
         ⟨"C", ["Required but not set"]⟩]) ∧
    envSchema c1SchemaBoom c1SourceG = Except.error (SchemaErr.other "boom") := by
  constructor
  · have h := ((c1_envSchema_aggregates c1SchemaMissing (fun _ => none)).1 (by decide)).2
      (by decide)
    rw [h]
    decide
  · exact (c1_envSchema_aggregates c1SchemaBoom c1SourceG).2 [] "G"
      (SchemaEntry.config c1BoomConfig) "boom" [] rfl rfl rfl

/-- Every character of a decimal body is a digit or the dot. -/
theorem decimalBody_chars {l : List Char} (h : decimalBody l = true) :
    ∀ c ∈ l, isDigitChar c = true ∨ c = '.' := by
  intro c hc
  have hsplit : l.takeWhile isDigitChar ++ l.dropWhile isDigitChar = l :=
    List.takeWhile_append_dropWhile _ _
  rw [← hsplit] at hc
  simp only [decimalBody] at h
  rcases List.mem_append.mp hc with hc1 | hc2
  · exact Or.inl (List.mem_takeWhile_imp hc1)
  · cases hr : l.dropWhile isDigitChar <;> rw [hr] at hc2
    · exact absurd hc2 (List.not_mem_nil c)
    · rename_i c0 fp
      simp only [hr, Bool.and_eq_true, decide_eq_true_eq] at h
      obtain ⟨h1, _, _, h4⟩ := h
      rcases List.mem_cons.mp hc2 with rfl | hfp
      · exact Or.inr h1
      · exact Or.inl ((List.all_eq_true.mp h4) c hfp)

/-- Digits and the dot are neither JS whitespace nor exponent starters. -/
theorem digit_or_dot_props {c : Char} (h : isDigitChar c = true ∨ c = '.') :
    jsWhitespaceChar c = false ∧ notExpChar c = true := by
  rcases h with h | rfl
  · simp only [isDigitChar, decide_eq_true_eq] at h
    constructor
    · simp only [jsWhitespaceChar, List.mem_cons, List.not_mem_nil, or_false,
        decide_eq_false_iff_not]
      omega
    · simp only [notExpChar, decide_eq_true_eq]
      constructor
      · intro he; subst he; exact absurd h (by decide)
      · intro he; subst he; exact absurd h (by decide)
  · exact ⟨by decide, by decide⟩

/-- A digit or dot differs from any character whose code is outside the
digit range and is not the dot's. -/
theorem digit_or_dot_ne {c d : Char} (h : isDigitChar c = true ∨ c = '.')
    (hd : (d.toNat < 48 ∨ 57 < d.toNat) ∧ d.toNat ≠ 46) : c ≠ d := by
  intro he
  rw [← he] at hd
  rcases h with h | h
  · simp only [isDigitChar, decide_eq_true_eq] at h
    omega
  · rw [h] at hd
    exact hd.2 rfl

/-- A decimal body starts with a digit. -/
theorem decimalBody_head {l : List Char} (h : decimalBody l = true) :
    ∃ c t, l = c :: t ∧ isDigitChar c = true := by
  have hip : (l.takeWhile isDigitChar).isEmpty = false := by
    simp only [decimalBody] at h
    cases hr : l.dropWhile isDigitChar <;> simp only [hr] at h
    · simpa [Bool.not_eq_true'] using h
    · simp only [Bool.and_eq_true, decide_eq_true_eq, Bool.not_eq_true'] at h
      exact h.2.1
  cases l with
  | nil => simp at hip
  | cons a t =>
    rw [List.takeWhile_cons] at hip
    by_cases ha : isDigitChar a = true
    · exact ⟨a, t, rfl, ha⟩
    · rw [if_neg ha] at hip
      simp at hip

/-- The mantissa parser accepts every decimal body. -/
theorem parseMantissa_of_decimalBody {l : List Char} (h : decimalBody l = true) :
    ∃ q, parseMantissa l = some q := by
  simp only [decimalBody] at h
  simp only [parseMantissa]
  cases hr : l.dropWhile isDigitChar <;> simp only [hr] at h ⊢
  · rw [Bool.not_eq_true'] at h
    simp [h]
  · rename_i c0 fp
    simp only [Bool.and_eq_true, decide_eq_true_eq, Bool.not_eq_true'] at h
    obtain ⟨rfl, h2, h3, h4⟩ := h
    rw [if_pos rfl]
    have hcond : (fp.all isDigitChar && !((l.takeWhile isDigitChar).isEmpty && fp.isEmpty))
        = true := by
      rw [h4, h2]
      rfl
    rw [hcond]
    simp

/-- The unsigned decimal parser accepts every decimal body (which has no
exponent letter to split on). -/
theorem parseUnsignedDec_of_decimalBody {l : List Char} (h : decimalBody l = true) :
    ∃ q, parseUnsignedDec l = some q := by
  have hall : ∀ c ∈ l, notExpChar c = true := fun c hc =>
    (digit_or_dot_props (decimalBody_chars h c hc)).2
  obtain ⟨ht, hd⟩ := takeWhile_eq_self_of_all hall
  simp only [parseUnsignedDec, hd, ht]
  exact parseMantissa_of_decimalBody h

/-- The signless body parser accepts every decimal body with a finite
value (a decimal body is never the Infinity literal). -/
theorem parseSignless_of_decimalBody {l : List Char} (h : decimalBody l = true) :
    ∃ q, parseSignless l = some (JsNum.fin q) := by
  obtain ⟨c, t, rfl, hdig⟩ := decimalBody_head h
  have hne : c :: t ≠ "Infinity".toList := by
    intro he
    have h2 : "Infinity".toList = 'I' :: "nfinity".toList := rfl
    rw [h2] at he
    injection he with he1 _
    rw [he1] at hdig
    exact absurd hdig (by decide)
  obtain ⟨q, hq⟩ := parseUnsignedDec_of_decimalBody h
  refine ⟨q, ?_⟩
  unfold parseSignless
  rw [if_neg hne, hq]
  rfl

/-- A head-default of a digits-and-dots list is never a given letter. -/
theorem headD_not_radix {rest : List Char} {d : Char}
    (hch : ∀ x ∈ rest, isDigitChar x = true ∨ x = '.')
    (hd : (d.toNat < 48 ∨ 57 < d.toNat) ∧ d.toNat ≠ 46 ∧ d.toNat ≠ 32) :
    ¬(rest.headD ' ' = d) := by
  cases rest with
  | nil =>
    intro he
    simp only [List.headD_nil] at he
    rw [← he] at hd
    exact hd.2.2 rfl
  | cons c2 ds =>
    intro he
    simp only [List.headD_cons] at he
    exact digit_or_dot_ne (hch c2 (List.mem_cons_self c2 ds)) ⟨hd.1, hd.2.1⟩ he

/-- The JS string-to-number conversion accepts every plain numeric
literal, with a finite value. -/
theorem specNumericLiteral_to_number {s : String} (h : specNumericLiteral s = true) :
    ∃ q, jsStrToNumber s = some (JsNum.fin q) := by
  cases hsl : s.toList with
  | nil =>
    simp only [specNumericLiteral, hsl] at h
    exact Bool.noConfusion h
  | cons c rest =>
    simp only [specNumericLiteral, hsl] at h
    unfold jsStrToNumber
    rw [hsl]
    by_cases hc : c = '-'
    · rw [if_pos hc] at h
      subst hc
      have htrim : jsTrim ('-' :: rest) = '-' :: rest := by
        apply jsTrim_eq_self
        intro x hx
        rcases List.mem_cons.mp hx with rfl | hx2
        · decide
        · exact (digit_or_dot_props (decimalBody_chars h x hx2)).1
      rw [htrim]
      simp only [jsStrToNumberCore]
      rw [if_pos trivial]
      obtain ⟨q, hq⟩ := parseSignless_of_decimalBody h
      exact ⟨-q, by simp [jsSigned, hq, JsNum.neg]⟩
    · rw [if_neg hc] at h
      obtain ⟨c0, t0, heq, hdig0⟩ := decimalBody_head h
      injection heq with he1 he2
      have hdig : isDigitChar c = true := by rw [he1]; exact hdig0
      have hchars : ∀ x ∈ rest, isDigitChar x = true ∨ x = '.' := fun x hx =>
        decimalBody_chars h x (List.mem_cons_of_mem c hx)
      have htrim : jsTrim (c :: rest) = c :: rest := by
        apply jsTrim_eq_self
        intro x hx
        exact (digit_or_dot_props (decimalBody_chars h x hx)).1
      rw [htrim]
      simp only [jsStrToNumberCore]
      have hplus : ¬(c = '+') := digit_or_dot_ne (Or.inl hdig) (by decide)
      have hx : ¬(c = '0' ∧ (rest.headD ' ' = 'x' ∨ rest.headD ' ' = 'X')) := by
        rintro ⟨_, hor | hor⟩
        · exact headD_not_radix hchars (by decide) hor
        · exact headD_not_radix hchars (by decide) hor
      have ho : ¬(c = '0' ∧ (rest.headD ' ' = 'o' ∨ rest.headD ' ' = 'O')) := by
        rintro ⟨_, hor | hor⟩
        · exact headD_not_radix hchars (by decide) hor
        · exact headD_not_radix hchars (by decide) hor
      have hb : ¬(c = '0' ∧ (rest.headD ' ' = 'b' ∨ rest.headD ' ' = 'B')) := by
        rintro ⟨_, hor | hor⟩
        · exact headD_not_radix hchars (by decide) hor
        · exact headD_not_radix hchars (by decide) hor
      rw [if_neg hplus, if_neg hc, if_neg hx, if_neg ho, if_neg hb]
      obtain ⟨q, hq⟩ := parseSignless_of_decimalBody h
      exact ⟨q, by simp [jsSigned, hq]⟩

/-- C5: the number parser returns the numeric value of every plain
numeric literal (integers, negatives, decimals all parse, to a finite
value), returns whatever value the JS numeric parse yields whenever that
parse accepts the input, and fails with a `FieldError` exactly when the
JS numeric parse yields NaN. -/
theorem c5_parseNumber (raw key : String) :
    (specNumericLiteral raw = true →
      ∃ q, jsStrToNumber raw = some (JsNum.fin q) ∧
        parseNumber raw key = Except.ok (JsNum.fin q)) ∧
    (∀ n, jsStrToNumber raw = some n → parseNumber raw key = Except.ok n) ∧
    ((∃ e, parseNumber raw key = Except.error e) ↔ jsStrToNumber raw = none) := by
  refine ⟨?_, ?_, ?_⟩
  · intro h
    obtain ⟨q, hq⟩ := specNumericLiteral_to_number h
    exact ⟨q, hq, by simp [parseNumber, hq]⟩
  · intro n hn
    simp [parseNumber, hn]
  · constructor
    · rintro ⟨e, he⟩
      cases hj : jsStrToNumber raw
      · rfl
      · simp [parseNumber, hj] at he
    · intro hj
      exact ⟨⟨key, ["Expected a number, got \"" ++ raw ++ "\""]⟩, by simp [parseNumber, hj]⟩

/-- Witness for C5 at concrete inputs: the negative literal "-5" parses
(with agreement between parser and numeric conversion), the integer "42"
parses to 42, and the non-literal "abc" fails. -/
theorem c5_witness :
    (∃ q, jsStrToNumber "-5" = some (JsNum.fin q) ∧
      parseNumber "-5" "K" = Except.ok (JsNum.fin q)) ∧
    parseNumber "42" "K" = Except.ok (JsNum.fin 42) ∧
    (∃ e, parseNumber "abc" "K" = Except.error e) :=
  ⟨(c5_parseNumber "-5" "K").1 (by decide),
   (c5_parseNumber "42" "K").2.1 (JsNum.fin 42) (by decide),
   (c5_parseNumber "abc" "K").2.2.mpr (by decide)⟩

/-- C6: the port parser succeeds exactly on raw strings whose JS numeric
parse is a finite integer within [0, 65535], returning that integer; in
particular "0" and "65535" succeed while "-1" and "99999" fail. -/
theorem c6_parsePort (raw key : String) :
    (∀ num, parsePort raw key = Except.ok num ↔
      ∃ q : ℚ, num = JsNum.fin q ∧ jsStrToNumber raw = some (JsNum.fin q) ∧
        q.den = 1 ∧ 0 ≤ q ∧ q ≤ 65535) ∧
    ((∃ e, parsePort raw key = Except.error e) ↔
      ¬∃ q : ℚ, jsStrToNumber raw = some (JsNum.fin q) ∧ q.den = 1 ∧ 0 ≤ q ∧ q ≤ 65535) ∧
    parsePort "0" key = Except.ok (JsNum.fin 0) ∧
    parsePort "65535" key = Except.ok (JsNum.fin 65535) ∧
    (∃ e, parsePort "-1" key = Except.error e) ∧
    (∃ e, parsePort "99999" key = Except.error e) := by
  have hok : ∀ num, parsePort raw key = Except.ok num ↔
      ∃ q : ℚ, num = JsNum.fin q ∧ jsStrToNumber raw = some (JsNum.fin q) ∧
        q.den = 1 ∧ 0 ≤ q ∧ q ≤ 65535 := by
    intro num
    constructor
    · intro h
      cases hj : jsStrToNumber raw <;> simp only [parsePort, hj] at h
      · exact Except.noConfusion h
      · rename_i n
        cases hcond : (!jsIsInteger n || n.ltQ 0 || n.gtQ 65535) <;> simp only [hcond] at h
        · injection h with h2
          subst h2
          simp only [Bool.or_eq_false_iff, Bool.not_eq_false'] at hcond
          obtain ⟨⟨hint, hlt⟩, hgt⟩ := hcond
          cases n with
          | inf p => simp [jsIsInteger] at hint
          | fin q =>
            simp only [jsIsInteger, decide_eq_true_eq] at hint
            simp only [JsNum.ltQ, decide_eq_false_iff_not, not_lt] at hlt
            simp only [JsNum.gtQ, decide_eq_false_iff_not, not_lt] at hgt
            exact ⟨q, rfl, rfl, hint, hlt, hgt⟩
        · exact Except.noConfusion h
    · rintro ⟨q, rfl, hj, hden, h0, h65⟩
      have h1 : jsIsInteger (JsNum.fin q) = true := by
        simp [jsIsInteger, hden]
      have h2 : (JsNum.fin q).ltQ 0 = false := by
        simp only [JsNum.ltQ, decide_eq_false_iff_not, not_lt]
        exact h0
      have h3 : (JsNum.fin q).gtQ 65535 = false := by
        simp only [JsNum.gtQ, decide_eq_false_iff_not, not_lt]
        exact h65
      simp [parsePort, hj, h1, h2, h3]
  refine ⟨hok, ?_, rfl, rfl,
    ⟨⟨key, ["Expected a port (0-65535), got \"-1\""]⟩, rfl⟩,
    ⟨⟨key, ["Expected a port (0-65535), got \"99999\""]⟩, rfl⟩⟩
  constructor
  · rintro ⟨e, he⟩ ⟨q, hj, hden, h0, h65⟩
    have := (hok (JsNum.fin q)).mpr ⟨q, rfl, hj, hden, h0, h65⟩
    rw [this] at he
    exact Except.noConfusion he
  · intro hno
    cases hp : parsePort raw key with
    | error e => exact ⟨e, rfl⟩
    | ok num =>
      obtain ⟨q, _, hj, hden, h0, h65⟩ := (hok num).mp hp
      exact absurd ⟨q, hj, hden, h0, h65⟩ hno

/-- Witness for C6 at a concrete input: "8080" parses to port 8080. -/
theorem c6_witness : parsePort "8080" "K" = Except.ok (JsNum.fin 8080) :=
  ((c6_parsePort "8080" "K").1 (JsNum.fin 8080)).mpr
    ⟨8080, rfl, by decide, by decide, by decide, by decide⟩

end CorvidEnv
